import Mathlib

/-!
# Verification of the hd-recon-v3 matching pipeline

Shallow embedding of the core matching pipeline of the bank-reconciliation
service: the payment-note line parser (`line-parser`), the hybrid line
matcher (`line-matcher.js`), the email relevance scorers
(`email-matcher.js`, `email-summarizer.js` / inbox search), the company-name
extractor, and the LLM summary field parser.

JavaScript numbers are modelled as `ℚ` (all arithmetic in the embedded code
is exact on the values that occur: sums of small integers, one affine map
and a half-up rounding step). JavaScript strings are modelled as `String`
(lists of characters); regular-expression tests used by the code are
implemented directly as character-list scanners with the same
leftmost-match / greedy / lazy backtracking behaviour as the source
patterns, as documented at each definition. External effects (database
queries, HTTP calls, the LLM) are passed in as explicit arguments: a
strategy backend is an `Except` value, mirroring a promise that either
resolves with rows or rejects.
-/

/-! ## Character and string helpers (JS semantics) -/

/-- The character class `\s` of JavaScript regular expressions (also the set
trimmed by `String.prototype.trim`): ASCII whitespace plus the Unicode
space separators, line separators and the BOM. -/
def jsWhite (c : Char) : Bool :=
  c = ' ' || c = '\t' || c = '\n' || c = '\r' || c = '\x0b' || c = '\x0c' ||
  c.toNat = 0xA0 || c.toNat = 0x1680 ||
  (0x2000 ≤ c.toNat && c.toNat ≤ 0x200A) ||
  c.toNat = 0x2028 || c.toNat = 0x2029 || c.toNat = 0x202F ||
  c.toNat = 0x205F || c.toNat = 0x3000 || c.toNat = 0xFEFF

/-- The character class `.` of a JavaScript regex without the `s` flag:
every character except the four line terminators. -/
def dotCh (c : Char) : Bool :=
  !(c = '\n' || c = '\r' || c.toNat = 0x2028 || c.toNat = 0x2029)

/-- Trim `jsWhite` characters from both ends (JS `String.prototype.trim`). -/
def trimL (s : List Char) : List Char :=
  ((s.dropWhile jsWhite).reverse.dropWhile jsWhite).reverse

/-- String-level JS trim. -/
def jsTrim (s : String) : String := (trimL s.toList).asString

/-- JS `String.prototype.toLowerCase` restricted to the ASCII range used by
the source data (`Char.toLower` lowers exactly A–Z). -/
def jsLower (s : String) : String := (s.toList.map Char.toLower).asString

/-- Does `hay` start with `needle` (character-exact)? -/
def startsWithL : List Char → List Char → Bool
  | _, [] => true
  | [], _ :: _ => false
  | h :: hs, n :: ns => h = n && startsWithL hs ns

/-- Does `hay` contain `needle` as a contiguous run
(JS `String.prototype.includes`)? -/
def containsL : List Char → List Char → Bool
  | [], needle => needle.isEmpty
  | h :: t, needle => startsWithL (h :: t) needle || containsL t needle

/-- `hay.includes(sub)` on strings. -/
def strIncludes (hay sub : String) : Bool := containsL hay.toList sub.toList

/-- Case-insensitive containment, as a `/.../i` regex over a literal. -/
def containsCI (hay needle : String) : Bool :=
  containsL (hay.toList.map Char.toLower) (needle.toList.map Char.toLower)

/-- Strip `pat` case-insensitively from the head of `s`, returning the rest. -/
def stripCI : List Char → List Char → Option (List Char)
  | s, [] => some s
  | [], _ :: _ => none
  | h :: t, n :: ns => if h.toLower = n.toLower then stripCI t ns else none

/-- Run a position-anchored matcher at every start position of `s`
(the leftmost-match search of an unanchored JS regex). -/
def scanFirst (f : List Char → Option α) : List Char → Option α
  | [] => f []
  | c :: t =>
    match f (c :: t) with
    | some r => some r
    | none => scanFirst f t

/-! ## Line parser (`line-parser`, src/unnamed/part_003)

`LINE_PATTERNS` is an ordered table of regex tests. The anchored patterns
all have the shape `/^TAG\s*:/i`; `BO1` and `BO2` are the same shape but
unanchored; `SENDING` is a case-insensitive substring alternation. In each
pattern the greedy `\s*` is followed by `:`, and no whitespace character is
a colon, so maximal munch is the only viable choice and the tests are
implemented deterministically. -/

/-- `TAG\s*:` matched at the head of `s`, case-insensitively. -/
def tagColonAt (tag : String) (s : List Char) : Bool :=
  match stripCI s tag.toList with
  | some r =>
    match r.dropWhile jsWhite with
    | ':' :: _ => true
    | _ => false
  | none => false

/-- `/^TAG\s*:/i` against the whole line. -/
def anchoredTag (tag : String) (s : String) : Bool := tagColonAt tag s.toList

/-- Boolean-valued position scan for the unanchored tests. -/
def anySuffix (f : List Char → Bool) : List Char → Bool
  | [] => f []
  | c :: t => f (c :: t) || anySuffix f t

/-- `/TAG\s*:/i` (unanchored) against the whole line. -/
def anywhereTag (tag : String) (s : String) : Bool :=
  anySuffix (tagColonAt tag) s.toList

/-- The ordered pattern table of the line parser: pairs of type name and
regex test, in declaration (= object iteration) order. -/
def LINE_PATTERNS : List (String × (String → Bool)) :=
  [("BO", anchoredTag "BO"),
   ("BO1", anywhereTag "BO1"),
   ("BO2", anywhereTag "BO2"),
   ("ORDER", anchoredTag "ORDER"),
   ("BN", anchoredTag "BN"),
   ("FR", anchoredTag "FR"),
   ("TO", anchoredTag "TO"),
   ("OBI", anchoredTag "OBI"),
   ("OB", anchoredTag "OB"),
   ("PY", anchoredTag "PY"),
   ("BI", anchoredTag "BI"),
   ("CR", anchoredTag "CR"),
   ("RF", anchoredTag "RF"),
   ("SENDING", fun s => containsCI s "SENDING PERSON" || containsCI s "SENDING CO"),
   ("ROC", anchoredTag "ROC"),
   ("TRID", anchoredTag "TRID"),
   ("ENDT", anchoredTag "ENDT")]

/-- `identifyLineType`: first matching pattern wins, otherwise `OTHER`. -/
def identifyLineType (lineText : String) : String :=
  match LINE_PATTERNS.find? (fun p => p.2 lineText) with
  | some p => p.1
  | none => "OTHER"

/-- `extractBOText`: the source simply returns the whole line. -/
def extractBOText (lineText : String) : String := lineText

/-- The switch body of `extractSearchText`, keyed by the line-type string.
The source's explicit `null` cases (`FR`, `TO`, `OBI`, `ROC`, `TRID`,
`ENDT`, `BI`, `CR`, `RF`, `BN`, `PY`, `OB`) and its `default` branch both
return null and are merged into the final `else`. -/
def searchTextFor (lineType : String) (lineText : String) : Option String :=
  if lineType = "BO" ∨ lineType = "BO1" ∨ lineType = "BO2" then
    some (extractBOText lineText)
  else if lineType = "ORDER" then some lineText
  else if lineType = "SENDING PERSON" then some lineText
  else if lineType = "DETAILS" then some lineText
  else none

/-- `extractSearchText`: classify the line, then dispatch on the type. -/
def extractSearchText (lineText : String) : Option String :=
  searchTextFor (identifyLineType lineText) lineText

/-- Metadata attached to each parsed line by `extractMetadata`. -/
structure LineMetadata where
  transactionId : Option String
  amount : Option String
  date : Option String
deriving DecidableEq

/-- `/TRID:(\d+)/i` matched at the head: literal `TRID:` then one or more
digits (greedy; the capture is the maximal digit run). -/
def tridAt (s : List Char) : Option (List Char) :=
  match stripCI s ("TRID:").toList with
  | some r =>
    let ds := r.takeWhile Char.isDigit
    if ds.isEmpty then none else some ds
  | none => none

/-- `/\$?([\d,]+\.\d{2})/` matched at the head. The optional `$` is
consumed when present (declining it would leave `[\d,]+` facing `$`, which
fails, so the choice is forced); `[\d,]+` is greedy and only its maximal
run can be followed by `.` (shorter runs leave a digit or comma where `.`
is required). The capture excludes the `$`. -/
def amountAt (s : List Char) : Option (List Char) :=
  let s' := match s with
    | '$' :: t => t
    | _ => s
  let run := s'.takeWhile (fun c => c.isDigit || c = ',')
  if run.isEmpty then none
  else
    match s'.drop run.length with
    | '.' :: d1 :: d2 :: _ =>
      if d1.isDigit && d2.isDigit then some (run ++ '.' :: d1 :: [d2]) else none
    | _ => none

/-- `/\d{8}/` matched at the head: exactly eight digits. -/
def dateAt (s : List Char) : Option (List Char) :=
  let ds := s.take 8
  if ds.length = 8 && ds.all Char.isDigit then some ds else none

/-- `extractMetadata`: three independent unanchored regex scans. -/
def extractMetadata (lineText : String) : LineMetadata :=
  { transactionId := (scanFirst tridAt lineText.toList).map List.asString
    amount := (scanFirst amountAt lineText.toList).map List.asString
    date := (scanFirst dateAt lineText.toList).map List.asString }

/-- A parsed payment-note line. -/
structure ParsedLine where
  lineNo : Nat
  lineText : String
  lineType : String
  searchText : Option String
  metadata : LineMetadata
deriving DecidableEq

/-- `.replace(/\\n/g, '\n')`: every literal backslash-`n` pair becomes a
newline, scanning left to right. -/
def replBackslashN : List Char → List Char
  | '\\' :: 'n' :: t => '\n' :: replBackslashN t
  | c :: t => c :: replBackslashN t
  | [] => []

/-- `.replace(/\r\n/g, '\n')`. -/
def replCRLF : List Char → List Char
  | '\r' :: '\n' :: t => '\n' :: replCRLF t
  | c :: t => c :: replCRLF t
  | [] => []

/-- `.replace(/\r/g, '\n')`. -/
def replCR (s : List Char) : List Char :=
  s.map (fun c => if c = '\r' then '\n' else c)

/-- `.split('\n')`. -/
def splitNL : List Char → List (List Char)
  | [] => [[]]
  | '\n' :: t => [] :: splitNL t
  | c :: t =>
    match splitNL t with
    | h :: r => (c :: h) :: r
    | [] => [[c]]

/-- Build one `ParsedLine` from a 0-based index and its text
(the body of the final `map` of `parsePaymentNotes`). -/
def mkParsedLine (idx : Nat) (lineText : String) : ParsedLine :=
  { lineNo := idx + 1
    lineText := lineText
    lineType := identifyLineType lineText
    searchText := extractSearchText lineText
    metadata := extractMetadata lineText }

/-- `parsePaymentNotes`: normalize line endings, split, trim, drop empties
(`mergeWrappedLines` is the identity in the source), then classify each
line. A `none` input models a null/undefined `Vwezw` (the source also
returns `[]` for it). -/
def parsePaymentNotes (paymentNotesRaw : Option String) : List ParsedLine :=
  match paymentNotesRaw with
  | none => []
  | some raw =>
    let normalized := replCR (replCRLF (replBackslashN raw.toList))
    let rawLines :=
      ((splitNL normalized).map (fun l => (trimL l).asString)).filter (fun l => l ≠ "")
    rawLines.enum.map (fun p => mkParsedLine p.1 p.2)

/-- `shouldMatchLine`. The source first rejects a falsy `searchText`; an
empty-string `searchText` takes the same `false` path here through the
length test, so outcomes agree on every input. -/
def shouldMatchLine (parsedLine : ParsedLine) : Bool :=
  match parsedLine.searchText with
  | none => false
  | some st =>
    if parsedLine.lineType ∈ ["TRID", "ENDT", "FR", "TO", "BI", "CR", "RF"] then false
    else if st.length < 5 then false
    else true

example : identifyLineType "BO:219062889 BO1:ACME LLC BO2:123 MAIN ST" = "BO" := by decide
example : identifyLineType "SENDING PERSON JOHN" = "SENDING" := by decide
example : identifyLineType "TRID:998877" = "TRID" := by decide
example : identifyLineType "hello" = "OTHER" := by decide
example : extractSearchText "SENDING PERSON JOHN" = none := by decide
example : extractSearchText "ORDER: 12345" = some "ORDER: 12345" := by decide
example : extractMetadata "TRID:998877" = ⟨some "998877", none, none⟩ := by decide

/-! ## Hybrid line matcher (`src/srv/lib/line-matcher.js`)

A match candidate carries the historical record's id, its wire text, the
normalized confidence and the strategy label. The denormalized posting
fields (`postingKey`, `glAccount`, …) are copied verbatim from the row and
never inspected by the pipeline, so they are not repeated here. -/

structure HistMatch where
  ID : String
  wireText : String
  confidence : ℚ
  matchStrategy : String
deriving DecidableEq

/-- `Math.round` of JavaScript: half-up rounding (toward positive
infinity on ties). -/
def jsRound (x : ℚ) : ℤ := ⌊x + 1 / 2⌋

/-- The affine score-to-confidence map used identically by all three
strategies: `Math.round((60 + s * 35) * 10) / 10`. -/
def toConfidence (s : ℚ) : ℚ := (jsRound ((60 + s * 35) * 10) : ℚ) / 10

/-- A row of `RECONCILIATION_HISTORICAL` as returned by the two
cosine-similarity queries (similarity column aliased `similarity`). -/
structure SimilarityRow where
  ID : String
  wireText : String
  similarity : ℚ
deriving DecidableEq

/-- A row as returned by the fuzzy `CONTAINS` query (`SCORE()` column). -/
structure ScoreRow where
  ID : String
  wireText : String
  score : ℚ
deriving DecidableEq

/-- The result mapping of `vectorSearch`: each row becomes a candidate with
the affine-mapped confidence and strategy `VECTOR_SEMANTIC`. -/
def vectorSearchResults (rows : List SimilarityRow) : List HistMatch :=
  rows.map (fun r =>
    { ID := r.ID, wireText := r.wireText
      confidence := toConfidence r.similarity
      matchStrategy := "VECTOR_SEMANTIC" })

/-- The result mapping of `fuzzySearch` (strategy `FUZZY_TEXT`). -/
def fuzzySearchResults (rows : List ScoreRow) : List HistMatch :=
  rows.map (fun r =>
    { ID := r.ID, wireText := r.wireText
      confidence := toConfidence r.score
      matchStrategy := "FUZZY_TEXT" })

/-- The result mapping of `openaiEmbeddingSearch`
(strategy `OPENAI_EMBEDDING`). -/
def openaiEmbeddingSearchResults (rows : List SimilarityRow) : List HistMatch :=
  rows.map (fun r =>
    { ID := r.ID, wireText := r.wireText
      confidence := toConfidence r.similarity
      matchStrategy := "OPENAI_EMBEDDING" })

/-- One step of the `deduplicateMatches` loop: a `Map.set` keyed by `ID`,
replacing the stored candidate only when the new one has strictly higher
confidence. The first insertion of a key fixes its position, as in a JS
`Map`. -/
def dedupeInsert (acc : List HistMatch) (m : HistMatch) : List HistMatch :=
  if ∃ e ∈ acc, e.ID = m.ID then
    acc.map (fun e => if e.ID = m.ID ∧ e.confidence < m.confidence then m else e)
  else acc ++ [m]

/-- `deduplicateMatches`: fold all candidates (source parameter `matches`)
through the keyed map and read the values back in key-insertion order. -/
def deduplicateMatches (ms : List HistMatch) : List HistMatch :=
  ms.foldl dedupeInsert []

/-- The descending-confidence comparison of the final
`sort((a, b) => b.confidence - a.confidence)`. -/
def confGe (a b : HistMatch) : Prop := b.confidence ≤ a.confidence

instance : DecidableRel confGe :=
  fun a b => (inferInstance : Decidable (b.confidence ≤ a.confidence))

instance : IsTotal HistMatch confGe :=
  ⟨fun a b => le_total b.confidence a.confidence⟩

instance : IsTrans HistMatch confGe :=
  ⟨fun _ _ _ hab hbc => le_trans hbc hab⟩

/-- The confidence threshold of `searchLine`. -/
def MIN_CONFIDENCE : ℚ := 85

/-- The settled outcome of one strategy promise: `searchLine` attaches
`.catch(err => [])` to each of the three calls, so a rejection contributes
an empty list. -/
def strategyResult (r : Except String (List HistMatch)) : List HistMatch :=
  match r with
  | .ok ms => ms
  | .error _ => []

/-- `searchLine`: skip short lines, run the three strategies (their settled
outcomes are the three `Except` arguments), merge, deduplicate by id,
filter by the threshold, and stable-sort by descending confidence. -/
def searchLine (lineText : String)
    (fuzzy vector openai : Except String (List HistMatch)) : List HistMatch :=
  if (jsTrim lineText).length < 5 then []
  else
    List.insertionSort confGe
      ((deduplicateMatches
          (strategyResult fuzzy ++ strategyResult vector ++ strategyResult openai)).filter
        (fun m => MIN_CONFIDENCE ≤ m.confidence))

example :
    searchLine "ACME SUPPLY" (.ok [⟨"a", "w", 90, "FUZZY_TEXT"⟩])
      (.ok [⟨"a", "w", 70, "VECTOR_SEMANTIC"⟩, ⟨"b", "x", 86, "VECTOR_SEMANTIC"⟩])
      (.ok [⟨"a", "w", 95, "OPENAI_EMBEDDING"⟩]) =
    [⟨"a", "w", 95, "OPENAI_EMBEDDING"⟩, ⟨"b", "x", 86, "VECTOR_SEMANTIC"⟩] := by decide

example : toConfidence (1 / 2) = 775 / 10 := by
  norm_num [toConfidence, jsRound]
example : searchLine "abc" (.ok [⟨"a", "w", 90, "f"⟩]) (.ok []) (.ok []) = [] := by decide

/-! ## Cached-email search (`src/srv/lib/email-matcher.js`, part 1)

A row of `RECONCILIATION_EMAILCACHE` as seen by `calculateRelevanceScore`.
The `extractedCompanies` / `extractedAmounts` columns hold JSON text in the
database; they are modelled post-`JSON.parse`, with `none` standing for a
malformed document (the source catches the parse error and skips the
bonus). -/

structure CachedEmail where
  ID : String
  subject : String
  bodyPreview : String
  fromName : String
  fromAddress : String
  similarity : ℚ
  extractedCompanies : Option (List String)
  extractedAmounts : Option (List ℚ)
deriving DecidableEq

/-- `calculateRelevanceScore`: similarity base (×50) plus five business
bonuses, capped at 100. The `searchEmbedding` parameter is accepted and
unused, exactly as in the source. A zero `amount` models both a missing and
a zero amount (both are falsy). -/
def calculateRelevanceScore (email : CachedEmail) (companyName : String)
    (amount : ℚ) (searchEmbedding : List ℚ) : ℚ :=
  let subject := jsLower email.subject
  let bodyPreview := jsLower email.bodyPreview
  let companyLower := jsLower companyName
  let base : ℚ := email.similarity * 50
  let s1 : ℚ := if strIncludes subject companyLower then 20 else 0
  let s2 : ℚ := if strIncludes bodyPreview companyLower then 10 else 0
  let s3 : ℚ :=
    match email.extractedCompanies with
    | some cs => if cs.any (fun c => strIncludes (jsLower c) companyLower) then 15 else 0
    | none => 0
  let s4 : ℚ :=
    if amount ≠ 0 then
      match email.extractedAmounts with
      | some xs => if xs.any (fun x => |x - amount| ≤ amount * (1 / 100)) then 20 else 0
      | none => 0
    else 0
  let s5 : ℚ :=
    if strIncludes (jsLower email.fromName) companyLower
        || strIncludes (jsLower email.fromAddress) companyLower then 10 else 0
  min (base + s1 + s2 + s3 + s4 + s5) 100

/-- JS truthiness of an optional string argument (`!companyName` is true
for an absent argument and for the empty string). -/
def strTruthy (s : Option String) : Bool :=
  match s with
  | none => false
  | some t => t ≠ ""

/-- Descending combined-score order used by the two re-sorts. -/
def cachedScoreGe (a b : CachedEmail × ℚ) : Prop := b.2 ≤ a.2

instance : DecidableRel cachedScoreGe :=
  fun a b => (inferInstance : Decidable (b.2 ≤ a.2))

/-- `searchCachedEmails`. The database is reached only through two queries;
their outcomes are arguments: `embeddingResult` is the generated search
embedding (or `none` when HANA returns no row/NULL) and `rows` the result
of the date-windowed vector query. The guard throws before anything else;
a missing embedding throws through the `catch` (which rethrows); otherwise
the rows are rescored, re-sorted descending and the top 10 returned. -/
def searchCachedEmails (companyName : Option String) (amount : ℚ)
    (embeddingResult : Option (List ℚ)) (rows : List CachedEmail) :
    Except String (List (CachedEmail × ℚ)) :=
  if strTruthy companyName then
    match embeddingResult with
    | none => .error "Failed to generate search embedding"
    | some searchEmbedding =>
      let scored := rows.map (fun e =>
        (e, calculateRelevanceScore e (companyName.getD "") amount searchEmbedding))
      .ok ((List.insertionSort cachedScoreGe scored).take 10)
  else .error "Company name is required for email search"

/-! ## Company-name extractor (`src/srv/lib/email-matcher.js`, part 2)

The BO1 extraction regex `/BO1\s*:\s*(.+?)(?:\s*BO[23]\s*:|$)/i` and the
two cleanup replaces are implemented with the backtracking order of a JS
engine: alternatives are explored left to right, a greedy star prefers the
longest viable munch, the lazy `(.+?)` prefers the shortest, and the
alternation tries `\s*BO[23]\s*:` before `$`. -/

/-- `\s*BO[23]\s*:` matched at the head of `s` (case-insensitive). Both
`\s*` are greedy; since neither `B` nor `:` is whitespace, only the maximal
munch can succeed. -/
def bo23At (s : List Char) : Bool :=
  match s.dropWhile jsWhite with
  | b :: o :: d :: rest =>
    b.toLower = 'b' && o.toLower = 'o' && (d = '2' || d = '3') &&
    (match rest.dropWhile jsWhite with
     | ':' :: _ => true
     | _ => false)
  | _ => false

/-- The lazy capture `(.+?)` followed by `(?:\s*BO[23]\s*:|$)`: consume one
character at a time (each must be matched by `.`), after each character
first try the `BO2`/`BO3` lookahead branch, then end-of-string. -/
def findCap : List Char → Option (List Char)
  | [] => none
  | c :: r =>
    if dotCh c then
      if bo23At r || r.isEmpty then some [c]
      else (findCap r).map (fun cs => c :: cs)
    else none

/-- Backtracking for the `\s*` that follows `BO1\s*:`: try the maximal
whitespace munch `m` first, then shorter ones. `after` is the text right
after the colon; every dropped character is whitespace because `m` starts
at the length of the leading whitespace run. -/
def capAfterWs (after : List Char) : Nat → Option (List Char)
  | 0 => findCap after
  | m + 1 =>
    match findCap (after.drop (m + 1)) with
    | some cap => some cap
    | none => capAfterWs after m

/-- The whole pattern anchored at the head of `s`: `BO1`, greedy `\s*`,
`:`, backtracking `\s*`, then the lazy capture. -/
def bo1MatchAt (s : List Char) : Option (List Char) :=
  match s with
  | b :: o :: d :: rest =>
    if b.toLower = 'b' && o.toLower = 'o' && d = '1' then
      match rest.dropWhile jsWhite with
      | ':' :: after => capAfterWs after (after.takeWhile jsWhite).length
      | _ => none
    else none
  | _ => none

/-- Leftmost-match search for the BO1 pattern (`String.prototype.match`
with an unanchored regex): the capture at the first viable start. -/
def bo1Search : List Char → Option (List Char)
  | [] => none
  | c :: t =>
    match bo1MatchAt (c :: t) with
    | some cap => some cap
    | none => bo1Search t

/-- `.replace(/\s*BO[23]\s*:.*$/i, '')`: truncate at the leftmost position
where `\s*BO[23]\s*:` matches. The input (a trimmed `(.+?)` capture)
contains no line terminators, so the trailing `.*$` always completes. -/
def replBO23 : List Char → List Char
  | [] => []
  | c :: t => if bo23At (c :: t) then [] else c :: replBO23 t

/-- `.replace(/^BO[0-9]+\s*:\s*/i, '')`: strip an anchored `BO`‑digits‑
colon prefix. The greedy digit run and both `\s*` admit only the maximal
munch (a digit is neither whitespace nor a colon). -/
def replBOPre (s : List Char) : List Char :=
  match s with
  | b :: o :: rest =>
    if b.toLower = 'b' && o.toLower = 'o' then
      let ds := rest.takeWhile Char.isDigit
      if ds.isEmpty then s
      else
        match (rest.dropWhile Char.isDigit).dropWhile jsWhite with
        | ':' :: r2 => r2.dropWhile jsWhite
        | _ => s
    else s
  | _ => s

/-- The full cleanup applied to a raw BO1 capture: trim, drop a `BO2`/`BO3`
tail remnant, drop a stray `BO`-prefix, trim again. -/
def bo1Clean (cap : List Char) : List Char :=
  trimL (replBOPre (replBO23 (trimL cap)))

/-- The cleaned substring of a line between its `BO1:` marker and the next
`BO2:`/`BO3:` marker (or end of line), when the BO1 pattern matches. -/
def bo1CleanedCapture (lineText : String) : Option String :=
  (bo1Search lineText.toList).map (fun cap => (bo1Clean cap).asString)

/-- The pattern-stage extraction result (`source: 'BO1'`). -/
structure CompanyExtraction where
  companyName : String
  source : String
  confidence : ℚ
  amount : ℚ
  fullLine : String
deriving DecidableEq

/-- `extractCompanyName`: find the first `BO`-typed line, run the BO1
regex, clean the capture, and reject results shorter than two characters.
Every failure path (no lines, no BO line, empty line text, no regex match,
empty or too-short cleaned name) falls through to `null`; the surrounding
`try`/`catch` is vacuous here since no step can throw, which the totality
of this definition reflects. -/
def extractCompanyName (parsedLines : List ParsedLine) (amount : ℚ) :
    Option CompanyExtraction :=
  if parsedLines.isEmpty then none
  else
    match parsedLines.find? (fun l => l.lineType = "BO") with
    | none => none
    | some boLine =>
      if boLine.lineText = "" then none
      else
        match bo1Search boLine.lineText.toList with
        | none => none
        | some cap =>
          let companyName := (bo1Clean cap).asString
          if companyName = "" then none
          else if companyName.length < 2 then none
          else some
            { companyName := companyName, source := "BO1", confidence := 95
              amount := amount, fullLine := boLine.lineText }

/-- The LLM-stage extraction result (`source: 'CHATGPT'`). -/
structure LLMExtraction where
  companyName : String
  source : String
  confidence : ℚ
  rawPaymentNotes : String
deriving DecidableEq

/-- `extractCompanyNameWithChatGPT`, with the LLM transport as an explicit
argument: `response` is the settled chat completion (`.error` for any
transport/backend failure, which the source catches and degrades to
`null`). A `none` input models a null/non-string `paymentNotesRaw`. -/
def extractCompanyNameWithChatGPT (paymentNotesRaw : Option String)
    (response : Except String String) : Option LLMExtraction :=
  match paymentNotesRaw with
  | none => none
  | some raw =>
    match response with
    | .error _ => none
    | .ok content =>
      let companyName := jsTrim content
      if companyName = "" ∨ companyName = "NONE" ∨ companyName.length < 2 then none
      else some
        { companyName := companyName, source := "CHATGPT", confidence := 90
          rawPaymentNotes := raw }

example :
    bo1CleanedCapture "BO:219062889 BO1:ACME LLC BO2:123 MAIN ST" = some "ACME LLC" := by
  decide
example : bo1CleanedCapture "BO1:X" = some "X" := by decide
example : bo1CleanedCapture "BO1:   " = some "" := by decide
example : bo1CleanedCapture "BO1:ACMEBO2:SURP" = some "ACME" := by decide

/-! ## Summary field parser (`src/srv/lib/email-summarizer.js`, part 1) -/

/-- The structured accounting fields returned by `parseActionItems`. -/
structure ActionItems where
  costCenter : Option String
  companyCode : Option String
  glAccount : Option String
  invoice : Option String
  notes : Option String
deriving DecidableEq

/-- One label pattern `/\*\*Label\*\*:\s*(.+)/i` matched at the head of
`s`: the literal label (case-insensitively), a greedy `\s*` with
backtracking (its munch may cover line terminators, which the following
`(.+)` cannot consume), then the greedy capture `(.+)` of at least one
non-terminator character. -/
def labelCapAt (lab : List Char) (s : List Char) : Option (List Char) :=
  match stripCI s lab with
  | some r => capGreedy r (r.takeWhile jsWhite).length
  | none => none
where
  /-- Try the whitespace munch `m` first, then shorter ones; for each munch
  the capture is the maximal run of `.`-matchable characters, nonempty. -/
  capGreedy (r : List Char) : Nat → Option (List Char)
    | 0 =>
      let cap := r.takeWhile dotCh
      if cap.isEmpty then none else some cap
    | m + 1 =>
      let cap := (r.drop (m + 1)).takeWhile dotCh
      if cap.isEmpty then capGreedy r m else some cap

/-- Leftmost match of a label pattern over the whole summary; returns the
capture group. -/
def findLabel (s : String) (lab : String) : Option String :=
  (scanFirst (labelCapAt lab.toList) s.toList).map List.asString

/-- `cleanValue`: trim, then map `"Not found"` (case-insensitive) and
`"-"` to absent. -/
def cleanValue (value : Option String) : Option String :=
  match value with
  | none => none
  | some v =>
    let trimmed := jsTrim v
    if jsLower trimmed = "not found" ∨ trimmed = "-" then none else some trimmed

/-- The five label literals of `parseActionItems`, in source order. -/
def summaryLabels : List String :=
  ["**Cost Center**:", "**Company Code**:", "**GL Account**:",
   "**Invoice/Reference**:", "**Notes**:"]

/-- `parseActionItems`: five independent label matches, each cleaned. A
falsy summary (`none` here models null, and the empty string takes the same
early return) yields all fields absent. The `catch` branch of the source
(which would put a 200-character prefix into `notes`) is unreachable:
`String.prototype.match` on a string argument cannot throw. -/
def parseActionItems (summary : Option String) : ActionItems :=
  match summary with
  | none => ⟨none, none, none, none, none⟩
  | some s =>
    if s = "" then ⟨none, none, none, none, none⟩
    else
      { costCenter := cleanValue (findLabel s "**Cost Center**:")
        companyCode := cleanValue (findLabel s "**Company Code**:")
        glAccount := cleanValue (findLabel s "**GL Account**:")
        invoice := cleanValue (findLabel s "**Invoice/Reference**:")
        notes := cleanValue (findLabel s "**Notes**:") }

example :
    parseActionItems (some "**Cost Center**: 19090001\n**Notes**: Not found") =
      ⟨some "19090001", none, none, none, none⟩ := by decide
example :
    parseActionItems (some "hello world") = ⟨none, none, none, none, none⟩ := by decide

/-! ## Live inbox search (`src/srv/lib/email-summarizer.js`, part 2)

One Graph API message as consumed by `calculateRelevance`: the nested
`from.emailAddress.name` / `.address` fields are flattened (with `''` for
an absent field, as the source's `|| ''` does). -/

structure InboxEmail where
  subject : String
  bodyPreview : String
  fromName : String
  fromAddress : String
  hasAttachments : Bool
deriving DecidableEq

/-- `amount.toString().replace(/\B(?=(\d{3})+(?!\d))/g, ',')` on an
all-digit rendering: a comma is inserted at every interior position from
which the remaining digit count is a positive multiple of three. -/
def addCommas (s : List Char) : List Char :=
  let n := s.length
  (s.enum.map (fun p =>
    if p.1 ≠ 0 ∧ (n - p.1) % 3 = 0 then [',', p.2] else [p.2])).flatten

/-- `calculateRelevance` of the live-mailbox variant: base 0, six additive
bonuses, no cap. Every summand is an integer constant, so the score is
modelled in `ℤ`; amounts are modelled as naturals (the integer dollar
amounts the feature is used with), rendered in decimal for the two
substring bonuses; a zero amount is falsy and skips them. -/
def calculateRelevance (email : InboxEmail) (companyName : String)
    (amount : ℕ) : ℤ :=
  let subject := jsLower email.subject
  let preview := jsLower email.bodyPreview
  let companyLower := jsLower companyName
  let amountStr := (addCommas (toString amount).toList).asString
  let amountPlain := toString amount
  let s1 : ℤ := if strIncludes subject companyLower then 50 else 0
  let s2 : ℤ := if strIncludes preview companyLower then 30 else 0
  let s3 : ℤ :=
    if amount ≠ 0 ∧ (strIncludes subject amountStr ∨ strIncludes subject amountPlain)
    then 30 else 0
  let s4 : ℤ :=
    if amount ≠ 0 ∧ (strIncludes preview amountStr ∨ strIncludes preview amountPlain)
    then 20 else 0
  let s5 : ℤ := if email.hasAttachments then 10 else 0
  let s6 : ℤ :=
    if strIncludes (jsLower email.fromName) companyLower
        || strIncludes (jsLower email.fromAddress) companyLower then 20 else 0
  s1 + s2 + s3 + s4 + s5 + s6

/-- Descending relevance order of the final sort in `searchInbox`. -/
def inboxScoreGe (a b : InboxEmail × ℤ) : Prop := b.2 ≤ a.2

instance : DecidableRel inboxScoreGe :=
  fun a b => (inferInstance : Decidable (b.2 ≤ a.2))

/-- `searchInbox`, with the Graph API call as an explicit settled outcome.
The required-name guard throws first; a transport error whose message
mentions a missing destination degrades to an empty result, any other
error is rethrown; otherwise every message is scored and the list sorted
by descending relevance. -/
def searchInbox (companyName : Option String) (amount : ℕ)
    (apiResult : Except String (List InboxEmail)) :
    Except String (List (InboxEmail × ℤ)) :=
  if strTruthy companyName then
    match apiResult with
    | .error msg =>
      if strIncludes msg "not found" || strIncludes msg "destination" then .ok []
      else .error msg
    | .ok emails =>
      let results := emails.map (fun e =>
        (e, calculateRelevance e (companyName.getD "") amount))
      .ok (List.insertionSort inboxScoreGe results)
  else .error "Company name is required for email search"

example : (addCommas ("1234567").toList).asString = "1,234,567" := by decide
example :
    calculateRelevance ⟨"ACME payment 5", "ACME 5", "ACME", "billing@acme.com", true⟩
      "ACME" 5 = 160 := by decide

/-! ## Properties of the merge/dedupe/filter/sort pipeline -/

theorem dedupeInsert_ids_of_hit (acc : List HistMatch) (m : HistMatch)
    (h : ∃ e ∈ acc, e.ID = m.ID) :
    (dedupeInsert acc m).map HistMatch.ID = acc.map HistMatch.ID := by
  unfold dedupeInsert
  rw [if_pos h, List.map_map]
  apply List.map_congr_left
  intro e _
  simp only [Function.comp_apply]
  split
  case isTrue hc => exact hc.1.symm
  case isFalse => rfl

theorem dedupeInsert_nodup (acc : List HistMatch) (m : HistMatch)
    (h : (acc.map HistMatch.ID).Nodup) :
    ((dedupeInsert acc m).map HistMatch.ID).Nodup := by
  by_cases hm : ∃ e ∈ acc, e.ID = m.ID
  · rw [dedupeInsert_ids_of_hit acc m hm]; exact h
  · unfold dedupeInsert
    rw [if_neg hm, List.map_append, List.nodup_append]
    refine ⟨h, by simp, ?_⟩
    intro a ha hb
    simp only [List.map_cons, List.map_nil, List.mem_singleton] at hb
    subst hb
    obtain ⟨e, he, hid⟩ := List.mem_map.mp ha
    exact hm ⟨e, he, hid⟩

theorem dedupeInsert_persist (acc : List HistMatch) (m e : HistMatch)
    (he : e ∈ acc) :
    ∃ f ∈ dedupeInsert acc m, f.ID = e.ID ∧ e.confidence ≤ f.confidence := by
  unfold dedupeInsert
  split
  · refine ⟨if e.ID = m.ID ∧ e.confidence < m.confidence then m else e,
      List.mem_map_of_mem _ he, ?_⟩
    split
    case isTrue hc => exact ⟨hc.1.symm, le_of_lt hc.2⟩
    case isFalse => exact ⟨rfl, le_rfl⟩
  · exact ⟨e, List.mem_append_left _ he, rfl, le_rfl⟩

theorem dedupeInsert_self (acc : List HistMatch) (m : HistMatch) :
    ∃ f ∈ dedupeInsert acc m, f.ID = m.ID ∧ m.confidence ≤ f.confidence := by
  unfold dedupeInsert
  split
  case isTrue h =>
    obtain ⟨e, he, hid⟩ := h
    refine ⟨if e.ID = m.ID ∧ e.confidence < m.confidence then m else e,
      List.mem_map_of_mem _ he, ?_⟩
    split
    case isTrue => exact ⟨rfl, le_rfl⟩
    case isFalse hc =>
      refine ⟨hid, ?_⟩
      rcases not_and_or.mp hc with h1 | h2
      · exact absurd hid h1
      · exact le_of_not_lt h2
  case isFalse => exact ⟨m, List.mem_append_right _ (List.mem_singleton_self m), rfl, le_rfl⟩

theorem foldl_dedupe_persist :
    ∀ (ms acc : List HistMatch) (e : HistMatch), e ∈ acc →
      ∃ f ∈ ms.foldl dedupeInsert acc, f.ID = e.ID ∧ e.confidence ≤ f.confidence := by
  intro ms
  induction ms with
  | nil => exact fun acc e he => ⟨e, he, rfl, le_rfl⟩
  | cons m rest ih =>
    intro acc e he
    obtain ⟨f, hf, hid, hc⟩ := dedupeInsert_persist acc m e he
    obtain ⟨g, hg, hid2, hc2⟩ := ih (dedupeInsert acc m) f hf
    exact ⟨g, hg, hid2.trans hid, hc.trans hc2⟩

theorem foldl_dedupe_reaches :
    ∀ (ms acc : List HistMatch) (m : HistMatch), m ∈ ms →
      ∃ f ∈ ms.foldl dedupeInsert acc, f.ID = m.ID ∧ m.confidence ≤ f.confidence := by
  intro ms
  induction ms with
  | nil => intro _ m h; cases h
  | cons a rest ih =>
    intro acc m hm
    rcases List.mem_cons.mp hm with h | h
    · subst h
      obtain ⟨f, hf, hid, hc⟩ := dedupeInsert_self acc m
      obtain ⟨g, hg, hid2, hc2⟩ := foldl_dedupe_persist rest (dedupeInsert acc m) f hf
      exact ⟨g, hg, hid2.trans hid, hc.trans hc2⟩
    · exact ih (dedupeInsert acc a) m h

theorem foldl_dedupe_nodup :
    ∀ (ms acc : List HistMatch), (acc.map HistMatch.ID).Nodup →
      ((ms.foldl dedupeInsert acc).map HistMatch.ID).Nodup := by
  intro ms
  induction ms with
  | nil => exact fun _ h => h
  | cons m rest ih => exact fun acc h => ih _ (dedupeInsert_nodup acc m h)

theorem deduplicateMatches_nodup (ms : List HistMatch) :
    ((deduplicateMatches ms).map HistMatch.ID).Nodup :=
  foldl_dedupe_nodup ms [] (by simp)

theorem nodup_id_filter_len (l : List HistMatch) (i : String)
    (hnd : (l.map HistMatch.ID).Nodup) (hex : ∃ x ∈ l, x.ID = i) :
    (l.filter (fun m => m.ID = i)).length = 1 := by
  induction l with
  | nil => obtain ⟨x, hx, _⟩ := hex; cases hx
  | cons a t ih =>
    simp only [List.map_cons, List.nodup_cons] at hnd
    obtain ⟨hna, hnd'⟩ := hnd
    by_cases ha : a.ID = i
    · rw [List.filter_cons_of_pos (by simpa using ha)]
      have ht : t.filter (fun m => m.ID = i) = [] := by
        rw [List.filter_eq_nil_iff]
        intro x hx
        simp only [decide_eq_true_eq]
        intro hxi
        exact hna (List.mem_map.mpr ⟨x, hx, by rw [hxi, ha]⟩)
      simp [ht]
    · rw [List.filter_cons_of_neg (by simpa using ha)]
      apply ih hnd'
      obtain ⟨x, hx, hxi⟩ := hex
      rcases List.mem_cons.mp hx with h | h
      · exact absurd (h ▸ hxi) ha
      · exact ⟨x, h, hxi⟩

theorem nodup_id_eq {l : List HistMatch} (hnd : (l.map HistMatch.ID).Nodup)
    {x y : HistMatch} (hx : x ∈ l) (hy : y ∈ l) (hid : x.ID = y.ID) : x = y :=
  List.inj_on_of_nodup_map hnd hx hy hid

/-- C1: for every input line text (and every settled outcome of the three
strategies), the list returned by `searchLine` contains no candidate with
confidence below 85, contains no two candidates with the same `ID`, and is
sorted non-increasingly by confidence. -/
theorem searchLine_threshold_nodup_sorted (t : String)
    (fuzzy vector openai : Except String (List HistMatch)) :
    (∀ m ∈ searchLine t fuzzy vector openai, (85 : ℚ) ≤ m.confidence) ∧
    ((searchLine t fuzzy vector openai).map HistMatch.ID).Nodup ∧
    (searchLine t fuzzy vector openai).Sorted confGe := by
  unfold searchLine
  split
  · exact ⟨by simp, by simp, List.sorted_nil⟩
  · have hperm :
        List.Perm
          (List.insertionSort confGe
            ((deduplicateMatches
                (strategyResult fuzzy ++ strategyResult vector ++
                  strategyResult openai)).filter
              (fun m => MIN_CONFIDENCE ≤ m.confidence)))
          ((deduplicateMatches
              (strategyResult fuzzy ++ strategyResult vector ++
                strategyResult openai)).filter
            (fun m => MIN_CONFIDENCE ≤ m.confidence)) :=
      List.perm_insertionSort confGe _
    refine ⟨?_, ?_, List.sorted_insertionSort confGe _⟩
    · intro m hm
      have hm' := hperm.mem_iff.mp hm
      have hc := List.of_mem_filter hm'
      simpa [MIN_CONFIDENCE] using of_decide_eq_true hc
    · have h1 :
          (((deduplicateMatches
                (strategyResult fuzzy ++ strategyResult vector ++
                  strategyResult openai)).filter
              (fun m => MIN_CONFIDENCE ≤ m.confidence)).map HistMatch.ID).Nodup :=
        List.Nodup.sublist ((List.filter_sublist _).map HistMatch.ID)
          (deduplicateMatches_nodup _)
      exact ((hperm.map HistMatch.ID).nodup_iff).mpr h1

/-- C4: a strategy that fails contributes exactly zero candidates: replacing
any one strategy's rejection by a resolution with the empty list leaves the
output of `searchLine` unchanged, so the surviving strategies' merged,
filtered, sorted results are still returned and the call itself cannot
fail. -/
theorem searchLine_failed_strategy_is_empty (t msg : String)
    (fuzzy vector openai : Except String (List HistMatch)) :
    searchLine t (.error msg) vector openai = searchLine t (.ok []) vector openai ∧
    searchLine t fuzzy (.error msg) openai = searchLine t fuzzy (.ok []) openai ∧
    searchLine t fuzzy vector (.error msg) = searchLine t fuzzy vector (.ok []) :=
  ⟨rfl, rfl, rfl⟩

/-- C5: when the same id occurs among the candidates, the deduplicated
output keeps exactly one entry for it, and that entry's confidence is
maximal among all candidates carrying the id; concretely, three strategies
reporting one id at confidences 90, 70 and 95 yield exactly one orchestrator
entry for it, at confidence 95. -/
theorem deduplicateMatches_unique_max :
    (∀ (ms : List HistMatch) (i : String), (∃ m ∈ ms, m.ID = i) →
      ((deduplicateMatches ms).filter (fun m => m.ID = i)).length = 1 ∧
      ∀ x ∈ deduplicateMatches ms, x.ID = i →
        ∀ m' ∈ ms, m'.ID = i → m'.confidence ≤ x.confidence) ∧
    searchLine "ACME SUPPLY COMPANY"
      (.ok [⟨"H1", "WIRE", 90, "FUZZY_TEXT"⟩])
      (.ok [⟨"H1", "WIRE", 70, "VECTOR_SEMANTIC"⟩])
      (.ok [⟨"H1", "WIRE", 95, "OPENAI_EMBEDDING"⟩]) =
      [⟨"H1", "WIRE", 95, "OPENAI_EMBEDDING"⟩] := by
  constructor
  · intro ms i hex
    have hnd := deduplicateMatches_nodup ms
    constructor
    · apply nodup_id_filter_len _ _ hnd
      obtain ⟨m, hm, hid⟩ := hex
      obtain ⟨f, hf, hfid, _⟩ := foldl_dedupe_reaches ms [] m hm
      exact ⟨f, hf, hfid.trans hid⟩
    · intro x hx hxid m' hm' hmid
      obtain ⟨f, hf, hfid, hc⟩ := foldl_dedupe_reaches ms [] m' hm'
      have hxf : x = f := nodup_id_eq hnd hx hf (by rw [hxid, hfid, hmid])
      rw [hxf]; exact hc
  · decide

/-- Witness for C5: the general conjunct applied to the 90/70/95 scenario
list. -/
theorem deduplicateMatches_unique_max_witness :
    ((deduplicateMatches
        [⟨"H1", "WIRE", 90, "FUZZY_TEXT"⟩, ⟨"H1", "WIRE", 70, "VECTOR_SEMANTIC"⟩,
         ⟨"H1", "WIRE", 95, "OPENAI_EMBEDDING"⟩]).filter
      (fun m => m.ID = "H1")).length = 1 ∧
    ∀ x ∈ deduplicateMatches
        [⟨"H1", "WIRE", 90, "FUZZY_TEXT"⟩, ⟨"H1", "WIRE", 70, "VECTOR_SEMANTIC"⟩,
         ⟨"H1", "WIRE", 95, "OPENAI_EMBEDDING"⟩], x.ID = "H1" →
      ∀ m' ∈ ([⟨"H1", "WIRE", 90, "FUZZY_TEXT"⟩, ⟨"H1", "WIRE", 70, "VECTOR_SEMANTIC"⟩,
         ⟨"H1", "WIRE", 95, "OPENAI_EMBEDDING"⟩] : List HistMatch), m'.ID = "H1" →
        m'.confidence ≤ x.confidence :=
  deduplicateMatches_unique_max.1
    [⟨"H1", "WIRE", 90, "FUZZY_TEXT"⟩, ⟨"H1", "WIRE", 70, "VECTOR_SEMANTIC"⟩,
     ⟨"H1", "WIRE", 95, "OPENAI_EMBEDDING"⟩] "H1" (by decide)

/-- C9: every strategy maps a raw backend score through the affine map
`round(60 + 35 s, 1 decimal)`, and on `s ∈ [0, 1]` that map lands in
`[60, 95]`. -/
theorem strategy_confidence_affine_bounds :
    (∀ s : ℚ, 0 ≤ s → s ≤ 1 → 60 ≤ toConfidence s ∧ toConfidence s ≤ 95) ∧
    (∀ rows : List SimilarityRow,
      (vectorSearchResults rows).map HistMatch.confidence =
        rows.map (fun r => toConfidence r.similarity)) ∧
    (∀ rows : List ScoreRow,
      (fuzzySearchResults rows).map HistMatch.confidence =
        rows.map (fun r => toConfidence r.score)) ∧
    (∀ rows : List SimilarityRow,
      (openaiEmbeddingSearchResults rows).map HistMatch.confidence =
        rows.map (fun r => toConfidence r.similarity)) := by
  refine ⟨?_, ?_, ?_, ?_⟩
  · intro s h0 h1
    unfold toConfidence jsRound
    constructor
    · have hf : (600 : ℤ) ≤ ⌊(60 + s * 35) * 10 + 1 / 2⌋ := by
        rw [Int.le_floor]
        push_cast
        linarith
      have hq : (600 : ℚ) ≤ ((⌊(60 + s * 35) * 10 + 1 / 2⌋ : ℤ) : ℚ) := by
        exact_mod_cast hf
      linarith
    · have hf : ⌊(60 + s * 35) * 10 + 1 / 2⌋ < (951 : ℤ) := by
        rw [Int.floor_lt]
        push_cast
        linarith
      have h950 : ⌊(60 + s * 35) * 10 + 1 / 2⌋ ≤ (950 : ℤ) := by omega
      have hq : ((⌊(60 + s * 35) * 10 + 1 / 2⌋ : ℤ) : ℚ) ≤ 950 := by
        exact_mod_cast h950
      linarith
  · intro rows; rw [vectorSearchResults, List.map_map]; rfl
  · intro rows; rw [fuzzySearchResults, List.map_map]; rfl
  · intro rows; rw [openaiEmbeddingSearchResults, List.map_map]; rfl

/-- Witness for C9: the bounds at the raw score 1/2
(confidence 77.5). -/
theorem strategy_confidence_affine_bounds_witness :
    60 ≤ toConfidence (1 / 2) ∧ toConfidence (1 / 2) ≤ 95 :=
  strategy_confidence_affine_bounds.1 (1 / 2) (by norm_num) (by norm_num)

/-! ## Line-classification claims -/

/-- C2 (failing input): a sending-person marker line is classified as type
`SENDING`, yet `extractSearchText` returns `none` for it — the switch's
`SENDING PERSON` (and `DETAILS`) case labels are never produced by
`identifyLineType`, so such lines fall into the default null branch instead
of yielding the raw line. -/
theorem sending_line_has_null_search_text :
    identifyLineType "SENDING PERSON JOHN DOE" = "SENDING" ∧
    extractSearchText "SENDING PERSON JOHN DOE" = none ∧
    shouldMatchLine (mkParsedLine 0 "SENDING PERSON JOHN DOE") = false := by
  decide

/-- Every classification is a key of the pattern table or `OTHER`. -/
theorem identifyLineType_mem_table (t : String) :
    identifyLineType t ∈ LINE_PATTERNS.map Prod.fst ++ ["OTHER"] := by
  unfold identifyLineType
  cases hf : LINE_PATTERNS.find? (fun p => p.2 t) with
  | none => simp
  | some p =>
    have hp := List.mem_of_find?_eq_some hf
    exact List.mem_append_left _ (List.mem_map.mpr ⟨p, hp, rfl⟩)

/-- Lines whose type is in the skip list of `shouldMatchLine` already have
no search text: the switch returns null for all of them. -/
theorem extractSearchText_eq_none_of_skip (t : String)
    (h : identifyLineType t ∈ ["TRID", "ENDT", "FR", "TO", "BI", "CR", "RF"]) :
    extractSearchText t = none := by
  unfold extractSearchText
  simp only [List.mem_cons, List.mem_singleton, List.not_mem_nil, or_false] at h
  rcases h with h | h | h | h | h | h | h <;> rw [h] <;> rfl

/-- The `shouldMatchLine` outcome of a line built by the parser, in terms
of the line's text. -/
theorem shouldMatchLine_mk_iff (idx : Nat) (t : String) :
    shouldMatchLine (mkParsedLine idx t) = true ↔
      ∃ st, extractSearchText t = some st ∧ 5 ≤ st.length := by
  show (match extractSearchText t with
    | none => false
    | some st =>
      if identifyLineType t ∈ ["TRID", "ENDT", "FR", "TO", "BI", "CR", "RF"] then false
      else if st.length < 5 then false
      else true) = true ↔ _
  cases hse : extractSearchText t with
  | none => simp
  | some st =>
    dsimp only
    have hskip :
        identifyLineType t ∉ ["TRID", "ENDT", "FR", "TO", "BI", "CR", "RF"] := by
      intro hmem
      rw [extractSearchText_eq_none_of_skip t hmem] at hse
      cases hse
    rw [if_neg hskip]
    by_cases hlen : st.length < 5
    · simp only [if_pos hlen]
      constructor
      · intro hfalse; cases hfalse
      · rintro ⟨st', hst', hlen'⟩
        injection hst' with he
        subst he
        omega
    · simp only [if_neg hlen]
      exact ⟨fun _ => ⟨st, rfl, by omega⟩, fun _ => by trivial⟩

/-- C10: for every line produced by `parsePaymentNotes`, `shouldMatchLine`
is true exactly when the line's `searchText` is present with length at
least 5; the explicit skip-type list is redundant because each of those
types already yields a null `searchText`. -/
theorem shouldMatchLine_iff_searchText (raw : Option String) (p : ParsedLine)
    (hp : p ∈ parsePaymentNotes raw) :
    (shouldMatchLine p = true ↔ ∃ st, p.searchText = some st ∧ 5 ≤ st.length) ∧
    (p.lineType ∈ ["TRID", "ENDT", "FR", "TO", "BI", "CR", "RF"] →
      p.searchText = none) := by
  obtain ⟨idx, t, rfl⟩ : ∃ idx t, p = mkParsedLine idx t := by
    cases raw with
    | none => cases hp
    | some r =>
      simp only [parsePaymentNotes] at hp
      obtain ⟨pair, _, hmk⟩ := List.mem_map.mp hp
      exact ⟨pair.1, pair.2, hmk.symm⟩
  refine ⟨shouldMatchLine_mk_iff idx t, fun hmem => ?_⟩
  exact extractSearchText_eq_none_of_skip t hmem

/-- Witness for C10: the first line of a two-line payment note (a
buyer-order line followed by a transaction-id line). -/
theorem shouldMatchLine_iff_searchText_witness :
    (mkParsedLine 0 "BO:219062889 BO1:ACME LLC BO2:123 MAIN ST" ∈
      parsePaymentNotes
        (some "BO:219062889 BO1:ACME LLC BO2:123 MAIN ST\nTRID:998877")) ∧
    ((shouldMatchLine (mkParsedLine 0 "BO:219062889 BO1:ACME LLC BO2:123 MAIN ST") = true ↔
        ∃ st, (mkParsedLine 0 "BO:219062889 BO1:ACME LLC BO2:123 MAIN ST").searchText = some st ∧
          5 ≤ st.length) ∧
      ((mkParsedLine 0 "BO:219062889 BO1:ACME LLC BO2:123 MAIN ST").lineType ∈
          ["TRID", "ENDT", "FR", "TO", "BI", "CR", "RF"] →
        (mkParsedLine 0 "BO:219062889 BO1:ACME LLC BO2:123 MAIN ST").searchText = none)) := by
  have hp :
      mkParsedLine 0 "BO:219062889 BO1:ACME LLC BO2:123 MAIN ST" ∈
        parsePaymentNotes
          (some "BO:219062889 BO1:ACME LLC BO2:123 MAIN ST\nTRID:998877") := by
    decide
  exact ⟨hp, shouldMatchLine_iff_searchText _ _ hp⟩

/-! ## Company-extraction claims -/

/-- C6: the pattern stage is total and returns either nothing or a result
whose name is the cleaned BO1 capture of the first buyer-order line, of
length at least 2, at fixed confidence 95; the LLM stage, when it returns a
result, carries fixed confidence 90. -/
theorem extractCompanyName_fixed_confidence :
    (∀ (parsedLines : List ParsedLine) (amount : ℚ) (r : CompanyExtraction),
      extractCompanyName parsedLines amount = some r →
      r.confidence = 95 ∧ r.source = "BO1" ∧ 2 ≤ r.companyName.length ∧
        r.amount = amount ∧
        ∃ boLine, parsedLines.find? (fun l => l.lineType = "BO") = some boLine ∧
          r.fullLine = boLine.lineText ∧
          bo1CleanedCapture boLine.lineText = some r.companyName) ∧
    (∀ (paymentNotesRaw : Option String) (response : Except String String)
        (r : LLMExtraction),
      extractCompanyNameWithChatGPT paymentNotesRaw response = some r →
      r.confidence = 90 ∧ r.source = "CHATGPT") := by
  constructor
  · intro pls amount r h
    unfold extractCompanyName at h
    split at h
    · cases h
    · cases hfind : pls.find? (fun l => l.lineType = "BO") with
      | none => rw [hfind] at h; cases h
      | some boLine =>
        rw [hfind] at h
        dsimp only at h
        split at h
        · cases h
        · cases hcap : bo1Search boLine.lineText.toList with
          | none => rw [hcap] at h; cases h
          | some cap =>
            rw [hcap] at h
            dsimp only at h
            split at h
            · cases h
            · split at h
              · cases h
              · next hlen =>
                injection h with h
                subst h
                refine ⟨rfl, rfl, ?_, rfl, boLine, rfl, rfl, ?_⟩
                · dsimp only
                  omega
                · dsimp only
                  unfold bo1CleanedCapture
                  rw [hcap]
                  rfl
  · intro raw response r h
    unfold extractCompanyNameWithChatGPT at h
    cases raw with
    | none => cases h
    | some s =>
      cases response with
      | error e => cases h
      | ok content =>
        dsimp only at h
        split at h
        · cases h
        · injection h with h
          subst h
          exact ⟨rfl, rfl⟩

/-- Witness for C6: a buyer-order line yielding the cleaned name
`ACME LLC` at confidence 95, together with the properties the claim
asserts of it. -/
theorem extractCompanyName_fixed_confidence_witness :
    extractCompanyName
        [⟨1, "BO:219062889 BO1:ACME LLC BO2:123 MAIN ST", "BO",
          some "BO:219062889 BO1:ACME LLC BO2:123 MAIN ST",
          ⟨none, none, some "21906288"⟩⟩] 5 =
      some ⟨"ACME LLC", "BO1", 95, 5, "BO:219062889 BO1:ACME LLC BO2:123 MAIN ST"⟩ ∧
    ((⟨"ACME LLC", "BO1", 95, 5,
        "BO:219062889 BO1:ACME LLC BO2:123 MAIN ST"⟩ : CompanyExtraction).confidence = 95 ∧
      (⟨"ACME LLC", "BO1", 95, 5,
        "BO:219062889 BO1:ACME LLC BO2:123 MAIN ST"⟩ : CompanyExtraction).source = "BO1" ∧
      2 ≤ (⟨"ACME LLC", "BO1", 95, 5,
        "BO:219062889 BO1:ACME LLC BO2:123 MAIN ST"⟩ : CompanyExtraction).companyName.length ∧
      (⟨"ACME LLC", "BO1", 95, 5,
        "BO:219062889 BO1:ACME LLC BO2:123 MAIN ST"⟩ : CompanyExtraction).amount = 5 ∧
      ∃ boLine,
        ([⟨1, "BO:219062889 BO1:ACME LLC BO2:123 MAIN ST", "BO",
            some "BO:219062889 BO1:ACME LLC BO2:123 MAIN ST",
            ⟨none, none, some "21906288"⟩⟩] : List ParsedLine).find?
            (fun l => l.lineType = "BO") = some boLine ∧
          (⟨"ACME LLC", "BO1", 95, 5,
            "BO:219062889 BO1:ACME LLC BO2:123 MAIN ST"⟩ : CompanyExtraction).fullLine =
            boLine.lineText ∧
          bo1CleanedCapture boLine.lineText =
            some (⟨"ACME LLC", "BO1", 95, 5,
              "BO:219062889 BO1:ACME LLC BO2:123 MAIN ST"⟩ : CompanyExtraction).companyName) := by
  have hEq :
      extractCompanyName
          [⟨1, "BO:219062889 BO1:ACME LLC BO2:123 MAIN ST", "BO",
            some "BO:219062889 BO1:ACME LLC BO2:123 MAIN ST",
            ⟨none, none, some "21906288"⟩⟩] 5 =
        some ⟨"ACME LLC", "BO1", 95, 5, "BO:219062889 BO1:ACME LLC BO2:123 MAIN ST"⟩ := by
    decide
  exact ⟨hEq, extractCompanyName_fixed_confidence.1 _ 5 _ hEq⟩

/-! ## Summary-parser claims -/

/-- C7 (counterexample): a non-empty summary matching none of the five
label regexes is parsed to an `ActionItems` whose `notes` field is absent,
not the raw text. -/
theorem parseActionItems_no_label_cex :
    ("hello world" ≠ "") ∧
    (∀ lab ∈ summaryLabels, findLabel "hello world" lab = none) ∧
    (parseActionItems (some "hello world")).notes ≠ some "hello world" := by
  refine ⟨by decide, by decide, by decide⟩

/-- C7 (amended): for every non-empty summary in which none of the five
field label regexes match, `parseActionItems` does not throw and returns
all five fields absent, including `notes`. -/
theorem parseActionItems_no_label_all_absent (s : String) (h1 : s ≠ "")
    (h2 : ∀ lab ∈ summaryLabels, findLabel s lab = none) :
    parseActionItems (some s) = ⟨none, none, none, none, none⟩ := by
  have c1 := h2 "**Cost Center**:" (by decide)
  have c2 := h2 "**Company Code**:" (by decide)
  have c3 := h2 "**GL Account**:" (by decide)
  have c4 := h2 "**Invoice/Reference**:" (by decide)
  have c5 := h2 "**Notes**:" (by decide)
  unfold parseActionItems
  dsimp only
  rw [if_neg h1, c1, c2, c3, c4, c5]
  rfl

/-- Witness for C7 (amended): the summary `hello world`. -/
theorem parseActionItems_no_label_all_absent_witness :
    ("hello world" ≠ "") ∧
    (∀ lab ∈ summaryLabels, findLabel "hello world" lab = none) ∧
    parseActionItems (some "hello world") = ⟨none, none, none, none, none⟩ := by
  have h1 : ("hello world" : String) ≠ "" := by decide
  have h2 : ∀ lab ∈ summaryLabels, findLabel "hello world" lab = none := by decide
  exact ⟨h1, h2, parseActionItems_no_label_all_absent "hello world" h1 h2⟩

/-! ## Email-evidence–search claims -/

/-- C8: with an absent or empty company name, both email-search variants
fail with the hard error and return no partial result, regardless of the
remaining arguments. -/
theorem email_search_requires_company (companyName : Option String)
    (h : strTruthy companyName = false) (amount : ℚ)
    (embeddingResult : Option (List ℚ)) (rows : List CachedEmail)
    (amount2 : ℕ) (apiResult : Except String (List InboxEmail)) :
    searchCachedEmails companyName amount embeddingResult rows =
      .error "Company name is required for email search" ∧
    searchInbox companyName amount2 apiResult =
      .error "Company name is required for email search" := by
  constructor
  · unfold searchCachedEmails
    rw [if_neg (by simp [h])]
  · unfold searchInbox
    rw [if_neg (by simp [h])]

/-- Witness for C8: the omitted company name. -/
theorem email_search_requires_company_witness :
    strTruthy none = false ∧
    (searchCachedEmails none 0 none [] =
        .error "Company name is required for email search" ∧
      searchInbox none 0 (.ok []) =
        .error "Company name is required for email search") :=
  ⟨by decide, email_search_requires_company none (by decide) 0 none [] 0 (.ok [])⟩

/-- C3 (counterexample): neither bound of the claim holds as stated. The
cached-corpus `calculateRelevanceScore` drops below 0 on an email whose
stored cosine similarity is negative (similarity −1 with no bonuses gives
−50), and the live-mailbox `calculateRelevance` is not clamped to 100 — an
email hitting every bonus scores 160. -/
theorem calculateRelevance_not_clamped :
    (calculateRelevanceScore
        ⟨"E1", "s", "b", "f", "a", -1, none, none⟩ "ACME" 0 [] = -50 ∧
      ¬(0 ≤ calculateRelevanceScore
        ⟨"E1", "s", "b", "f", "a", -1, none, none⟩ "ACME" 0 [])) ∧
    (calculateRelevance
        ⟨"ACME payment 5", "ACME 5", "ACME", "billing@acme.com", true⟩ "ACME" 5 = 160 ∧
      ¬(calculateRelevance
        ⟨"ACME payment 5", "ACME 5", "ACME", "billing@acme.com", true⟩ "ACME" 5 ≤ 100)) := by
  have h1 : strIncludes (jsLower "s") (jsLower "ACME") = false := by decide
  have h2 : strIncludes (jsLower "b") (jsLower "ACME") = false := by decide
  have h3 : strIncludes (jsLower "f") (jsLower "ACME") = false := by decide
  have h4 : strIncludes (jsLower "a") (jsLower "ACME") = false := by decide
  have hval : calculateRelevanceScore
      ⟨"E1", "s", "b", "f", "a", -1, none, none⟩ "ACME" 0 [] = -50 := by
    simp [calculateRelevanceScore, h1, h2, h3, h4]
    norm_num [min_def]
  refine ⟨⟨hval, ?_⟩, by decide⟩
  rw [hval]
  norm_num

/-- C3 (amended): the cached-corpus score is at most 100 unconditionally,
and nonnegative whenever the stored similarity is nonnegative; the
live-mailbox score is nonnegative and at most 160 (it has no clamp
at 100). -/
theorem relevance_score_bounds (email : CachedEmail) (companyName : String)
    (amount : ℚ) (searchEmbedding : List ℚ)
    (email2 : InboxEmail) (companyName2 : String) (amount2 : ℕ) :
    calculateRelevanceScore email companyName amount searchEmbedding ≤ 100 ∧
    (0 ≤ email.similarity →
      0 ≤ calculateRelevanceScore email companyName amount searchEmbedding) ∧
    (0 ≤ calculateRelevance email2 companyName2 amount2 ∧
      calculateRelevance email2 companyName2 amount2 ≤ 160) := by
  refine ⟨?_, ?_, ⟨?_, ?_⟩⟩
  · simp only [calculateRelevanceScore]
    exact min_le_right _ _
  · intro hsim
    simp only [calculateRelevanceScore]
    have hbase : (0 : ℚ) ≤ email.similarity * 50 := mul_nonneg hsim (by norm_num)
    refine le_min ?_ (by norm_num)
    cases email.extractedCompanies <;> cases email.extractedAmounts <;>
      dsimp only <;> split_ifs <;> linarith
  · simp only [calculateRelevance]
    split_ifs <;> norm_num
  · simp only [calculateRelevance]
    split_ifs <;> norm_num

/-- Witness for C3 (amended): a cached email of similarity 1/2 (the
nonnegativity hypothesis of the lower bound is discharged there) and a live
email with no bonuses. -/
theorem relevance_score_bounds_witness :
    calculateRelevanceScore
        ⟨"E1", "subj", "body", "from", "addr", 1 / 2, none, none⟩ "ACME" 0 [] ≤ 100 ∧
    (0 : ℚ) ≤ (⟨"E1", "subj", "body", "from", "addr", 1 / 2, none, none⟩ :
        CachedEmail).similarity ∧
    0 ≤ calculateRelevanceScore
        ⟨"E1", "subj", "body", "from", "addr", 1 / 2, none, none⟩ "ACME" 0 [] ∧
    (0 ≤ calculateRelevance ⟨"s", "b", "n", "a", false⟩ "ACME" 0 ∧
      calculateRelevance ⟨"s", "b", "n", "a", false⟩ "ACME" 0 ≤ 160) := by
  have h := relevance_score_bounds
    ⟨"E1", "subj", "body", "from", "addr", 1 / 2, none, none⟩ "ACME" 0 []
    ⟨"s", "b", "n", "a", false⟩ "ACME" 0
  have hsim : (0 : ℚ) ≤ (⟨"E1", "subj", "body", "from", "addr", 1 / 2, none, none⟩ :
      CachedEmail).similarity := by norm_num
  exact ⟨h.1, hsim, h.2.1 hsim, h.2.2⟩
